import Mathlib

/-!
Verification of the Eleventy site configuration (`.eleventy.js`) of a
personal blog / photo-portfolio repository.

The repository's own logic consists of:
* the `getAspectClass` Nunjucks async filter: computes `ratio = width / height`
  from image metadata and maps it to one of four CSS classes through a fixed
  threshold chain, defaulting to `"aspect-landscape"` on any failure;
* the `readableDate` filter: `DateTime.fromJSDate(dateObj, {zone: 'utc'})
  .toFormat("yyyy-MM-dd")`;
* the `random` filter: `array[Math.floor(Math.random() * array.length)]`;
* the `posts` and `photos` collections:
  `collectionApi.getFilteredByGlob(glob).reverse()`.

JavaScript numeric division is modelled by `JsNum` (finite rational, the two
infinities, and NaN) so that the `0/0 = NaN` case and NaN comparison
semantics (every comparison with NaN is false) are captured exactly.
-/

/-- A JavaScript number as produced by division: a finite value (modelled as
an exact rational), positive or negative infinity, or NaN. -/
inductive JsNum : Type where
  | nan : JsNum
  | posInf : JsNum
  | negInf : JsNum
  | finite : ℚ → JsNum
deriving DecidableEq, Repr

/-- JavaScript `x < c` for a finite literal `c`: false whenever `x` is NaN. -/
def JsNum.ltQ : JsNum → ℚ → Bool
  | .nan, _ => false
  | .posInf, _ => false
  | .negInf, _ => true
  | .finite q, c => decide (q < c)

/-- JavaScript `x >= c` for a finite literal `c`: false whenever `x` is NaN. -/
def JsNum.geQ : JsNum → ℚ → Bool
  | .nan, _ => false
  | .posInf, _ => true
  | .negInf, _ => false
  | .finite q, c => decide (c ≤ q)

/-- JavaScript division `a / b` of two nonnegative integers (image
dimensions): `0 / 0` is NaN, `a / 0` with `a > 0` is Infinity, otherwise the
exact quotient. -/
def jsDiv (a b : ℕ) : JsNum :=
  if b = 0 then (if a = 0 then .nan else .posInf)
  else .finite ((a : ℚ) / (b : ℚ))

/-- The threshold chain of the `getAspectClass` filter, applied to the
computed `ratio`.  Mirrors the source: `cssClass` starts as
`"aspect-landscape"`, then `ratio < 0.7` gives portrait,
`ratio >= 0.7 && ratio < 1.3` square, `ratio >= 1.3 && ratio < 1.8`
landscape, `ratio >= 1.8` panorama; if no branch fires the initial default
stands. -/
def getAspectClassOfRatio (ratio : JsNum) : String :=
  if ratio.ltQ (7/10) then "aspect-portrait"
  else if ratio.geQ (7/10) && ratio.ltQ (13/10) then "aspect-square"
  else if ratio.geQ (13/10) && ratio.ltQ (9/5) then "aspect-landscape"
  else if ratio.geQ (9/5) then "aspect-panorama"
  else "aspect-landscape"

/-- The `getAspectClass` filter.  The metadata step either fails (the
`catch` branch, which calls back with `"aspect-landscape"`) or yields the
width and height of the smallest generated image, from which
`ratio = img.width / img.height` is classified. -/
def getAspectClass (meta : Except String (ℕ × ℕ)) : String :=
  match meta with
  | .error _ => "aspect-landscape"
  | .ok (w, h) => getAspectClassOfRatio (jsDiv w h)

/-- On a finite ratio the redundant guards of the source's `else if` chain
collapse to a four-way split at 0.7, 1.3, 1.8. -/
lemma getAspectClassOfRatio_finite (r : ℚ) :
    getAspectClassOfRatio (.finite r) =
      if r < 7/10 then "aspect-portrait"
      else if r < 13/10 then "aspect-square"
      else if r < 9/5 then "aspect-landscape"
      else "aspect-panorama" := by
  simp only [getAspectClassOfRatio, JsNum.ltQ, JsNum.geQ]
  by_cases h1 : r < 7/10
  · simp [h1]
  · have h1' := not_lt.mp h1
    by_cases h2 : r < 13/10
    · simp [h1, h2, h1']
    · have h2' := not_lt.mp h2
      by_cases h3 : r < 9/5
      · simp [h1, h2, h3, h2',
          le_trans (by norm_num : (7:ℚ)/10 ≤ 13/10) h2']
      · have h3' := not_lt.mp h3
        simp [h1, h2, h3, h3',
          le_trans (by norm_num : (13:ℚ)/10 ≤ 9/5) h3',
          le_trans (by norm_num : (7:ℚ)/10 ≤ 9/5) h3']

/-- C1: for every positive width and height, `getAspectClass` returns
exactly one of the four labels, and the labels partition the positive
rationals by the thresholds 0.7, 1.3, 1.8 with lower bounds inclusive. -/
theorem getAspectClass_partition (w h : ℕ) (hw : 0 < w) (hh : 0 < h) :
    ((getAspectClass (.ok (w, h)) = "aspect-portrait" ∨
      getAspectClass (.ok (w, h)) = "aspect-square" ∨
      getAspectClass (.ok (w, h)) = "aspect-landscape" ∨
      getAspectClass (.ok (w, h)) = "aspect-panorama") ∧
     (getAspectClass (.ok (w, h)) = "aspect-portrait" ↔
        (w : ℚ) / (h : ℚ) < 7/10) ∧
     (getAspectClass (.ok (w, h)) = "aspect-square" ↔
        7/10 ≤ (w : ℚ) / (h : ℚ) ∧ (w : ℚ) / (h : ℚ) < 13/10) ∧
     (getAspectClass (.ok (w, h)) = "aspect-landscape" ↔
        13/10 ≤ (w : ℚ) / (h : ℚ) ∧ (w : ℚ) / (h : ℚ) < 9/5) ∧
     (getAspectClass (.ok (w, h)) = "aspect-panorama" ↔
        9/5 ≤ (w : ℚ) / (h : ℚ))) := by
  have hh0 : h ≠ 0 := Nat.pos_iff_ne_zero.mp hh
  simp only [getAspectClass, jsDiv, hh0, if_false, reduceIte,
    getAspectClassOfRatio_finite]
  set r : ℚ := (w : ℚ) / (h : ℚ) with hr
  split_ifs with h1 h2 h3 <;>
    refine ⟨by simp, ?_, ?_, ?_, ?_⟩ <;>
    simp <;>
    first
      | linarith
      | (constructor <;> linarith)
      | (intro ha hb; linarith)
      | (intro ha; linarith)

/-- Witness for C1 at width 1, height 1 (ratio 1, square). -/
theorem getAspectClass_partition_witness :
    getAspectClass (.ok (1, 1)) = "aspect-square" ∧
    7/10 ≤ ((1 : ℕ) : ℚ) / ((1 : ℕ) : ℚ) ∧
    ((1 : ℕ) : ℚ) / ((1 : ℕ) : ℚ) < 13/10 := by
  have h := getAspectClass_partition 1 1 (by decide) (by decide)
  have hb : 7/10 ≤ ((1 : ℕ) : ℚ) / ((1 : ℕ) : ℚ) ∧
      ((1 : ℕ) : ℚ) / ((1 : ℕ) : ℚ) < 13/10 := by
    constructor <;> push_cast <;> norm_num
  exact ⟨(h.2.2.1).mpr hb, hb⟩

/-- C2: sample and boundary ratios map to the labels given in the spec,
with the lower bounds 0.7 and 1.3 inclusive (upper bucket). -/
theorem getAspectClass_boundary_samples :
    getAspectClassOfRatio (.finite 1) = "aspect-square" ∧
    getAspectClassOfRatio (.finite (1/2)) = "aspect-portrait" ∧
    getAspectClassOfRatio (.finite (3/2)) = "aspect-landscape" ∧
    getAspectClassOfRatio (.finite 2) = "aspect-panorama" ∧
    getAspectClassOfRatio (.finite (7/10)) = "aspect-square" ∧
    getAspectClassOfRatio (.finite (13/10)) = "aspect-landscape" ∧
    getAspectClass (.ok (7, 10)) = "aspect-square" ∧
    getAspectClass (.ok (13, 10)) = "aspect-landscape" := by
  refine ⟨?_, ?_, ?_, ?_, ?_, ?_, ?_, ?_⟩ <;>
    simp only [getAspectClass, jsDiv, getAspectClassOfRatio_finite] <;>
    norm_num <;>
    simp only [getAspectClassOfRatio_finite] <;>
    norm_num

/-- C3: whenever the image-metadata step fails, the `catch` branch returns
the default label `"aspect-landscape"`; no error is propagated. -/
theorem getAspectClass_failure_default (e : String) :
    getAspectClass (.error e) = "aspect-landscape" := rfl

/-- Witness for C3 at a concrete error message. -/
theorem getAspectClass_failure_default_witness :
    getAspectClass (.error "unreadable file") = "aspect-landscape" :=
  getAspectClass_failure_default "unreadable file"

/-- C10: when both reported dimensions are 0 the ratio `0 / 0` is NaN, every
threshold comparison is false, and the pre-set default `"aspect-landscape"`
is returned. -/
theorem getAspectClass_nan_default :
    jsDiv 0 0 = JsNum.nan ∧
    getAspectClassOfRatio JsNum.nan = "aspect-landscape" ∧
    getAspectClass (.ok (0, 0)) = "aspect-landscape" := by decide

/-! ## Collections

`eleventyConfig.addCollection("posts", api => api.getFilteredByGlob("src/posts/*.md").reverse())`
and the identical `photos` callback over `"src/photos/*.md"`.  The framework
API is abstracted as a function from a glob pattern to the matching items
in directory-enumeration order. -/

/-- The part of the Eleventy collection API the callbacks use: the items
matching a glob, in the framework's enumeration order. -/
structure CollectionApi (α : Type) where
  getFilteredByGlob : String → List α

/-- The common glob-filter-then-reverse transformation both collection
callbacks apply. -/
def buildCollection {α : Type} (api : CollectionApi α) (glob : String) : List α :=
  (api.getFilteredByGlob glob).reverse

/-- The `posts` collection callback. -/
def postsCollection {α : Type} (api : CollectionApi α) : List α :=
  (api.getFilteredByGlob "src/posts/*.md").reverse

/-- The `photos` collection callback. -/
def photosCollection {α : Type} (api : CollectionApi α) : List α :=
  (api.getFilteredByGlob "src/photos/*.md").reverse

/-- A concrete three-item enumeration answering the posts glob. -/
def apiExample : CollectionApi String :=
  ⟨fun glob => if glob = "src/posts/*.md"
    then ["2024-a.md", "2024-b.md", "2024-c.md"] else []⟩

/-- A concrete three-item enumeration answering the photos glob. -/
def apiExample2 : CollectionApi String :=
  ⟨fun glob => if glob = "src/photos/*.md"
    then ["2024-a.md", "2024-b.md", "2024-c.md"] else []⟩

/-- C4: for both collections, given N matching items the callback returns a
sequence of length N that is the exact reverse of the underlying
enumeration order (no deduplication, no other sort). -/
theorem collections_reverse_enumeration {α : Type} (api : CollectionApi α) :
    ((postsCollection api).length =
        (api.getFilteredByGlob "src/posts/*.md").length ∧
      ∀ i : ℕ, i < (api.getFilteredByGlob "src/posts/*.md").length →
        (postsCollection api)[i]? =
          (api.getFilteredByGlob
            "src/posts/*.md")[(api.getFilteredByGlob "src/posts/*.md").length - 1 - i]?) ∧
    ((photosCollection api).length =
        (api.getFilteredByGlob "src/photos/*.md").length ∧
      ∀ i : ℕ, i < (api.getFilteredByGlob "src/photos/*.md").length →
        (photosCollection api)[i]? =
          (api.getFilteredByGlob
            "src/photos/*.md")[(api.getFilteredByGlob "src/photos/*.md").length - 1 - i]?) := by
  refine ⟨⟨List.length_reverse _, ?_⟩, ⟨List.length_reverse _, ?_⟩⟩ <;>
    intro i hi <;> exact List.getElem?_reverse hi

/-- Witness for C4 on the three-item enumeration: element 0 of the
collection is element 2 of the enumeration. -/
theorem collections_reverse_enumeration_witness :
    (postsCollection apiExample)[0]? =
      (apiExample.getFilteredByGlob
        "src/posts/*.md")[(apiExample.getFilteredByGlob "src/posts/*.md").length - 1 - 0]? :=
  (collections_reverse_enumeration apiExample).1.2 0 (by decide)

/-- C9: the two callbacks are the same glob-filter-then-reverse function on
disjoint globs: each equals `buildCollection` at its glob, and equal
underlying enumerations give equal outputs. -/
theorem collections_common_builder {α : Type} (api₁ api₂ : CollectionApi α)
    (hEq : api₁.getFilteredByGlob "src/posts/*.md" =
      api₂.getFilteredByGlob "src/photos/*.md") :
    postsCollection api₁ = photosCollection api₂ ∧
    postsCollection api₁ = buildCollection api₁ "src/posts/*.md" ∧
    photosCollection api₂ = buildCollection api₂ "src/photos/*.md" := by
  refine ⟨?_, rfl, rfl⟩
  simp only [postsCollection, photosCollection, hEq]

/-- Witness for C9: the two example enumerations agree, so the two
collections agree. -/
theorem collections_common_builder_witness :
    postsCollection apiExample = photosCollection apiExample2 :=
  (collections_common_builder apiExample apiExample2 (by decide)).1

/-! ## Random-element filter

`eleventyConfig.addFilter("random", array => array[Math.floor(Math.random() * array.length)])`.
`Math.random()` is modelled as an arbitrary exact rational `r` with
`0 ≤ r < 1`; uniformity is expressed by the index preimages being the `n`
half-open intervals `[i/n, (i+1)/n)` of equal length `1/n`. -/

/-- The index `Math.floor(r * array.length)` computed by the filter. -/
def randomIndex (r : ℚ) (n : ℕ) : ℕ := (⌊r * (n : ℚ)⌋).toNat

/-- The `random` filter: JavaScript indexing out of range yields
`undefined`, modelled as `none`. -/
def random {α : Type} (r : ℚ) (l : List α) : Option α :=
  l[randomIndex r l.length]?

/-- The chosen index is in range on a non-empty list. -/
lemma randomIndex_lt (r : ℚ) (n : ℕ) (hn : 0 < n) (h1 : r < 1) :
    randomIndex r n < n := by
  have hnq : (0 : ℚ) < (n : ℚ) := by exact_mod_cast hn
  have h2 : ⌊r * (n : ℚ)⌋ < (n : ℤ) := by
    apply Int.floor_lt.mpr
    push_cast
    nlinarith
  simp only [randomIndex]
  omega

/-- The preimage of index `i` under the floor map is the interval
from `i / n` inclusive to `(i + 1) / n` exclusive. -/
lemma randomIndex_eq_iff (r : ℚ) (n i : ℕ) (hn : 0 < n) (h0 : 0 ≤ r) :
    (randomIndex r n = i ↔
      (i : ℚ) / (n : ℚ) ≤ r ∧ r < ((i : ℚ) + 1) / (n : ℚ)) := by
  have hnq : (0 : ℚ) < (n : ℚ) := by exact_mod_cast hn
  have hfl : 0 ≤ ⌊r * (n : ℚ)⌋ := Int.floor_nonneg.mpr (by positivity)
  have hstep : randomIndex r n = i ↔ ⌊r * (n : ℚ)⌋ = (i : ℤ) := by
    simp only [randomIndex]
    omega
  rw [hstep, Int.floor_eq_iff]
  constructor
  · rintro ⟨ha, hb⟩
    constructor
    · rw [div_le_iff₀ hnq]
      exact_mod_cast ha
    · rw [lt_div_iff₀ hnq]
      push_cast at hb ⊢
      linarith
  · rintro ⟨ha, hb⟩
    constructor
    · rw [div_le_iff₀ hnq] at ha
      exact_mod_cast ha
    · rw [lt_div_iff₀ hnq] at hb
      push_cast at hb ⊢
      linarith

/-- C7: on a non-empty list and a random draw `r` in `[0, 1)`, the filter
returns a member of the list, and the draws selecting index `i` are exactly
the interval `[i/n, (i+1)/n)`, of equal length `1/n` for every `i` — the
choice is uniform. -/
theorem random_member_uniform {α : Type} (l : List α) (r : ℚ)
    (hne : l ≠ []) (h0 : 0 ≤ r) (h1 : r < 1) :
    (∃ a, random r l = some a ∧ a ∈ l) ∧
    (∀ i : ℕ, i < l.length →
      (randomIndex r l.length = i ↔
        (i : ℚ) / (l.length : ℚ) ≤ r ∧ r < ((i : ℚ) + 1) / (l.length : ℚ))) := by
  have hn : 0 < l.length := List.length_pos.mpr hne
  have hidx : randomIndex r l.length < l.length := randomIndex_lt r l.length hn h1
  constructor
  · exact ⟨l[randomIndex r l.length], by
      simp [random, List.getElem?_eq_getElem hidx], List.getElem_mem hidx⟩
  · intro i _
    exact randomIndex_eq_iff r l.length i hn h0

/-- Witness for C7 at `r = 1/2` on a three-element list. -/
theorem random_member_uniform_witness :
    (∃ a, random (1/2 : ℚ) ([10, 20, 30] : List ℤ) = some a ∧
      a ∈ ([10, 20, 30] : List ℤ)) :=
  (random_member_uniform ([10, 20, 30] : List ℤ) (1/2)
    (by decide) (by norm_num) (by norm_num)).1

/-- C8: on an empty list the filter accesses index `Math.floor(r * 0)` of
an empty array, which is `undefined` (`none`); no element is returned. -/
theorem random_empty {α : Type} (r : ℚ) : random r ([] : List α) = none := by
  simp [random]

/-- Witness for C8 at a concrete draw on the empty integer list. -/
theorem random_empty_witness : random (1/3 : ℚ) ([] : List ℤ) = none :=
  random_empty (1/3)

/-! ## The readableDate filter

`eleventyConfig.addFilter("readableDate", dateObj => DateTime.fromJSDate(dateObj, {zone: 'utc'}).toFormat("yyyy-MM-dd"))`.
A JS `Date` is an instant: a count of milliseconds since the Unix epoch.
The external date library is modelled from the spec: with the `utc` zone
option the format `"yyyy-MM-dd"` renders the proleptic-Gregorian calendar
date of the instant in UTC, zero-padded.  The process-local zone offset is
threaded as an explicit parameter so that its (non-)influence is visible:
it would be consulted only if no zone option were passed. -/

/-- Modelled from the spec: proleptic-Gregorian leap-year predicate used by
the UTC calendar of the external date library. -/
def isLeap (y : ℤ) : Bool := y % 4 == 0 && (y % 100 != 0 || y % 400 == 0)

/-- Modelled from the spec: length of month `m` of year `y` in the
proleptic Gregorian calendar. -/
def daysInMonth (y m : ℤ) : ℤ :=
  if m = 2 then (if isLeap y then 29 else 28)
  else if m = 4 ∨ m = 6 ∨ m = 9 ∨ m = 11 then 30
  else 31

/-- Day-of-era offset of civil month `m`, day `d` within a March-based
computational year. -/
def monthDoy (m d : ℤ) : ℤ :=
  (153 * (m + (if 2 < m then -3 else 9)) + 2) / 5 + d - 1

/-- Inverse of `monthDoy`: civil month and day from a March-based
day-of-year. -/
def doyMonth (doy : ℤ) : ℤ × ℤ :=
  let mp := (5 * doy + 2) / 153
  (mp + (if mp < 10 then 3 else -9), doy - (153 * mp + 2) / 5 + 1)

/-- Day-of-era from year-of-era and day-of-year. -/
def yoeDoe (yoe doy : ℤ) : ℤ := 365 * yoe + yoe / 4 - yoe / 100 + doy

/-- Year-of-era recovered from a day-of-era. -/
def doeYoe (doe : ℤ) : ℤ := (doe - doe / 1460 + doe / 36524 - doe / 146096) / 365

/-- Modelled from the spec: days since the Unix epoch of a civil UTC date
(standard 400-year-era computation of the proleptic Gregorian calendar). -/
def daysFromCivil (y m d : ℤ) : ℤ :=
  let yAdj := y - (if m ≤ 2 then 1 else 0)
  let era := yAdj / 400
  era * 146097 + yoeDoe (yAdj - era * 400) (monthDoy m d) - 719468

/-- Modelled from the spec: civil UTC date `(year, month, day)` of a count
of days since the Unix epoch. -/
def civilFromDays (z0 : ℤ) : ℤ × ℤ × ℤ :=
  let z := z0 + 719468
  let era := z / 146097
  let doe := z - era * 146097
  let yoe := doeYoe doe
  let doy := doe - yoeDoe yoe 0
  let md := doyMonth doy
  (era * 400 + yoe + (if md.1 ≤ 2 then 1 else 0), md.1, md.2)

/-- Two fixed digits (zero-padded). -/
def pad2 (n : ℕ) : String :=
  String.mk [Nat.digitChar (n / 10), Nat.digitChar (n % 10)]

/-- Four fixed digits (zero-padded). -/
def pad4 (n : ℕ) : String :=
  String.mk [Nat.digitChar (n / 1000 % 10), Nat.digitChar (n / 100 % 10),
    Nat.digitChar (n / 10 % 10), Nat.digitChar (n % 10)]

/-- Modelled from the spec: the `yyyy` field pads to four digits; years
outside `[0, 9999]` keep all their digits (with a sign when negative). -/
def formatYear (y : ℤ) : String :=
  if 0 ≤ y ∧ y < 10000 then pad4 y.toNat
  else if y < 0 then "-" ++ Nat.repr y.natAbs else Nat.repr y.toNat

/-- Render a civil date with the `"yyyy-MM-dd"` pattern. -/
def formatYMD (x : ℤ × ℤ × ℤ) : String :=
  formatYear x.1 ++ "-" ++ pad2 x.2.1.toNat ++ "-" ++ pad2 x.2.2.toNat

/-- Modelled from the spec: `toFormat("yyyy-MM-dd")` on a `DateTime` built
from an instant `ms` in a zone with the given fixed offset in minutes. -/
def luxonFormatYMD (zoneOffsetMinutes ms : ℤ) : String :=
  formatYMD (civilFromDays ((ms + zoneOffsetMinutes * 60000) / 86400000))

/-- The `readableDate` filter: `fromJSDate(dateObj, {zone: 'utc'})` pins
the zone option to UTC (offset 0), so the process-local offset — the value
the library would fall back to — is ignored. -/
def readableDate (localZoneOffsetMinutes : ℤ) (ms : ℤ) : String :=
  luxonFormatYMD ((some (0 : ℤ)).getD localZoneOffsetMinutes) ms

/-- The month stage inverts: `doyMonth` recovers month and day from
`monthDoy`, whose value lies in `[0, 365]` and reaches 365 only on
February 29. -/
lemma monthDoy_inv (m d : ℤ) (hm1 : 1 ≤ m) (hm2 : m ≤ 12) (hd1 : 1 ≤ d)
    (hd2 : d ≤ (if m = 2 then 29 else
      if m = 4 ∨ m = 6 ∨ m = 9 ∨ m = 11 then 30 else 31)) :
    doyMonth (monthDoy m d) = (m, d) ∧ 0 ≤ monthDoy m d ∧ monthDoy m d ≤ 365 ∧
      (monthDoy m d = 365 → m = 2 ∧ d = 29) := by
  simp only [doyMonth, monthDoy, Prod.mk.injEq]
  interval_cases m <;> simp_all <;> split_ifs <;> omega

set_option maxHeartbeats 8000000 in
/-- The year-of-era stage inverts: `doeYoe` recovers the year-of-era from
`yoeDoe`, whose value lies in `[0, 146096]`; day-of-year 365 is allowed
exactly when the civil year following the March-based year start is a leap
year of the era. -/
lemma doeYoe_yoeDoe (yoe doy : ℤ) (h1 : 0 ≤ yoe) (h2 : yoe ≤ 399) (h3 : 0 ≤ doy)
    (h4 : doy ≤ 364 +
      (if ((yoe + 1) % 4 = 0 ∧ (yoe + 1) % 100 ≠ 0) ∨ yoe + 1 = 400 then 1 else 0)) :
    doeYoe (yoeDoe yoe doy) = yoe ∧ 0 ≤ yoeDoe yoe doy ∧ yoeDoe yoe doy ≤ 146096 ∧
      yoeDoe yoe doy - yoeDoe yoe 0 = doy := by
  simp only [doeYoe, yoeDoe]
  obtain ⟨q, s, u, hh⟩ :
      ∃ q s u, yoe = 100 * q + 4 * s + u ∧ 0 ≤ q ∧ q ≤ 3 ∧ 0 ≤ s ∧ s ≤ 24 ∧
        0 ≤ u ∧ u ≤ 3 :=
    ⟨yoe / 100, yoe % 100 / 4, yoe % 4, by omega⟩
  obtain ⟨hy, hq0, hq3, hs0, hs24, hu0, hu3⟩ := hh
  subst hy
  refine ⟨?_, by omega, by omega, by omega⟩
  interval_cases q <;> interval_cases u <;> first
    | (split_ifs at h4 <;> omega)
    | (interval_cases s <;> split_ifs at h4 <;> omega)

/-- Era assembly: `civilFromDays` decomposes a day count built from an era,
a year-of-era and a day-of-year back into those stages. -/
lemma civil_assemble (era yoe doy : ℤ) (h0 : 0 ≤ yoe) (h399 : yoe ≤ 399)
    (hd0 : 0 ≤ doy)
    (hleap : doy ≤ 364 +
      (if ((yoe + 1) % 4 = 0 ∧ (yoe + 1) % 100 ≠ 0) ∨ yoe + 1 = 400 then 1 else 0)) :
    civilFromDays (era * 146097 + yoeDoe yoe doy - 719468) =
      (era * 400 + yoe + (if (doyMonth doy).1 ≤ 2 then 1 else 0),
        (doyMonth doy).1, (doyMonth doy).2) := by
  obtain ⟨hYoeInv, hdoe0, hdoeMax, hDoyRec⟩ := doeYoe_yoeDoe yoe doy h0 h399 hd0 hleap
  simp only [civilFromDays]
  rw [show era * 146097 + yoeDoe yoe doy - 719468 + 719468 =
    146097 * era + yoeDoe yoe doy from by ring]
  rw [show (146097 * era + yoeDoe yoe doy) / 146097 = era from by omega]
  rw [show 146097 * era + yoeDoe yoe doy - era * 146097 = yoeDoe yoe doy from by ring]
  rw [hYoeInv, hDoyRec]

/-- Round trip of the modelled calendar: `civilFromDays` inverts
`daysFromCivil` on every valid civil date. -/
theorem civilFromDays_daysFromCivil (y m d : ℤ)
    (hm1 : 1 ≤ m) (hm2 : m ≤ 12)
    (hd1 : 1 ≤ d) (hd2 : d ≤ daysInMonth y m) :
    civilFromDays (daysFromCivil y m d) = (y, m, d) := by
  have hdmax : d ≤ (if m = 2 then 29 else
      if m = 4 ∨ m = 6 ∨ m = 9 ∨ m = 11 then 30 else 31) := by
    simp only [daysInMonth] at hd2
    split_ifs at hd2 ⊢ <;> omega
  obtain ⟨hMonth, hdoy0, hdoy365, hdoyTop⟩ := monthDoy_inv m d hm1 hm2 hd1 hdmax
  obtain ⟨era, yoe, hSplit, hyoe0, hyoe399⟩ :
      ∃ era yoe, y - (if m ≤ 2 then 1 else 0) = 400 * era + yoe ∧
        0 ≤ yoe ∧ yoe ≤ 399 :=
    ⟨(y - (if m ≤ 2 then 1 else 0)) / 400,
      (y - (if m ≤ 2 then 1 else 0)) % 400, by omega⟩
  have hleap : monthDoy m d ≤ 364 +
      (if ((yoe + 1) % 4 = 0 ∧ (yoe + 1) % 100 ≠ 0) ∨ yoe + 1 = 400 then 1 else 0) := by
    split_ifs with hlp
    · omega
    · rcases lt_or_ge (monthDoy m d) 365 with hlt | hge
      · omega
      · have h365 : monthDoy m d = 365 := by omega
        obtain ⟨hmEq, hd29⟩ := hdoyTop h365
        subst hmEq
        simp only [daysInMonth, if_pos rfl] at hd2
        rcases hLeapCase : isLeap y with _ | _
        · rw [hLeapCase] at hd2
          simp at hd2
          omega
        · rw [hLeapCase] at hd2
          simp only [isLeap] at hLeapCase
          have hprops : y % 4 = 0 ∧ (y % 100 ≠ 0 ∨ y % 400 = 0) := by
            simpa using hLeapCase
          have hyEq : y = 400 * era + yoe + 1 := by
            split_ifs at hSplit <;> omega
          omega
  have hArg : daysFromCivil y m d =
      era * 146097 + yoeDoe yoe (monthDoy m d) - 719468 := by
    simp only [daysFromCivil]
    rw [hSplit]
    rw [show (400 * era + yoe) / 400 = era from by omega]
    rw [show 400 * era + yoe - era * 400 = yoe from by ring]
  rw [hArg, civil_assemble era yoe (monthDoy m d) hyoe0 hyoe399 hdoy0 hleap, hMonth]
  have hgoal : era * 400 + yoe + (if m ≤ 2 then 1 else 0) = y := by
    split_ifs at hSplit ⊢ <;> omega
  simp [hgoal]

/-- With the year in `[0, 9999]` the rendered date is ten characters. -/
lemma formatYMD_length (y m d : ℤ) (h1 : 0 ≤ y) (h2 : y ≤ 9999) :
    (formatYMD (y, m, d)).length = 10 := by
  simp only [formatYMD, formatYear]
  rw [if_pos (by omega : 0 ≤ y ∧ y < 10000)]
  rfl

/-- C5: for every local-zone offset, every valid civil UTC date with year
in `[0, 9999]` and every time of day, `readableDate` applied to the instant
renders exactly the `"yyyy-MM-dd"` form of that UTC civil date, a string of
length 10, regardless of the local zone. -/
theorem readableDate_utc_format (o y m d t : ℤ)
    (hm1 : 1 ≤ m) (hm2 : m ≤ 12) (hd1 : 1 ≤ d) (hd2 : d ≤ daysInMonth y m)
    (hy1 : 0 ≤ y) (hy2 : y ≤ 9999) (ht1 : 0 ≤ t) (ht2 : t < 86400000) :
    readableDate o (86400000 * daysFromCivil y m d + t) = formatYMD (y, m, d) ∧
    (readableDate o (86400000 * daysFromCivil y m d + t)).length = 10 := by
  have hms : (86400000 * daysFromCivil y m d + t + 0 * 60000) / 86400000 =
      daysFromCivil y m d := by omega
  have hmain : readableDate o (86400000 * daysFromCivil y m d + t) =
      formatYMD (y, m, d) := by
    simp only [readableDate, Option.getD_some, luxonFormatYMD]
    rw [hms, civilFromDays_daysFromCivil y m d hm1 hm2 hd1 hd2]
  refine ⟨hmain, ?_⟩
  rw [hmain]
  exact formatYMD_length y m d hy1 hy2

/-- Witness for C5: January 15 2025 at a mid-day instant, with a
non-trivial local offset of -480 minutes. -/
theorem readableDate_utc_format_witness :
    readableDate (-480) (86400000 * daysFromCivil 2025 1 15 + 43200123) =
      "2025-01-15" ∧
    (readableDate (-480) (86400000 * daysFromCivil 2025 1 15 + 43200123)).length
      = 10 := by
  have h := readableDate_utc_format (-480) 2025 1 15 43200123
    (by norm_num) (by norm_num) (by norm_num) (by decide)
    (by norm_num) (by norm_num) (by norm_num) (by norm_num)
  refine ⟨?_, h.2⟩
  rw [h.1]
  decide

/-- C6: `readableDate` is a pure function of the instant alone — the
process-local zone offset never influences the output, because the filter
pins the zone option to UTC. -/
theorem readableDate_timezone_insensitive (o₁ o₂ ms : ℤ) :
    readableDate o₁ ms = readableDate o₂ ms := rfl

/-- Witness for C6 at two concrete opposite zone offsets. -/
theorem readableDate_timezone_insensitive_witness :
    readableDate (-540) 1736899200000 = readableDate 330 1736899200000 :=
  readableDate_timezone_insensitive (-540) 330 1736899200000
